import Mathlib

set_option autoImplicit false
set_option maxHeartbeats 1000000

/-!
Verification of the CSV-to-binary waveform transcoder and the SCPI command
dispatcher of `src/Random_waveform_code.py` (classes `WaveformGenerator` and
`WaveformGUI`), as a shallow embedding in Lean.

Modelling conventions:
* A CSV data field is modelled by `CsvField`: either a numeric field carrying the
  IEEE-754 binary32 bit pattern that Python obtains from `float(field)` followed
  by `struct.pack`'s rounding to single precision (both are external library
  operations whose numerics are not re-implemented here), or a non-numeric field
  on which Python's `float` raises `ValueError`.
* File-system state relevant to the transcoder is reduced to the content of the
  input CSV path (`none` when `os.path.isfile` is false) and the content of the
  output path before/after the call.
* Device traffic is modelled as a trace of `DevCmd` values, one per
  `device.write` / `device.write_binary_values` call, in issue order.
-/

/-- A CSV field as seen by `convert_csv_to_binary`.  `num b` is a numeric field
whose parsed-and-rounded binary32 bit pattern is `b`; `nonNum` is a field on
which Python's `float` raises `ValueError`. -/
inductive CsvField where
  | num (b : Nat)
  | nonNum
deriving DecidableEq

/-- `true` iff Python's `float` succeeds on the field. -/
def CsvField.isNum : CsvField → Bool
  | .num _ => true
  | .nonNum => false

/-- The binary32 bit pattern of a numeric field (junk value `0` on `nonNum`;
only ever used under an all-numeric hypothesis). -/
def CsvField.bits : CsvField → Nat
  | .num b => b
  | .nonNum => 0

/-- The four little-endian bytes of the 32-bit pattern `b`, exactly what
`struct.pack('f', x)` appends for one value on a little-endian host (the byte
of bits 0-7 first, then 8-15, 16-23, 24-31). -/
def encodeField (b : Nat) : List Nat :=
  [b % 256, b / 256 % 256, b / 65536 % 256, b / 16777216 % 256]

/-- Models `float_row = list(map(float, row))` (source line 69): fields are
converted left to right, and the whole row fails (`none`) when some field is
non-numeric.  The result carries the binary32 bit patterns. -/
def float_row : List CsvField → Option (List Nat)
  | [] => some []
  | .num b :: r => (float_row r).map (fun l => b :: l)
  | .nonNum :: _ => none

/-- Models `bin_row = struct.pack('f' * len(float_row), *float_row)` (source
line 70): the concatenation of the 4-byte encodings of the row's values. -/
def bin_row (l : List Nat) : List Nat := (l.map encodeField).flatten

/-- Outcome of one `convert_csv_to_binary` call, carrying the bytes that were
written to the output file before the call returned or raised.
`fileNotFound` is the `FileNotFoundError` raised at source line 64 before the
output file is opened; `stopIteration` is the uncaught `next(reader)` failure
at line 67 on a zero-row file; `valueError` is the `float` failure inside the
row loop (line 69). -/
inductive ConvOutcome where
  | fileNotFound
  | stopIteration (written : List Nat)
  | valueError (written : List Nat)
  | ok (written : List Nat)
deriving DecidableEq

/-- The `for row in reader` loop of source lines 68-71.  `acc` is the content
written to the (already opened and truncated) output file so far.  A row whose
conversion fails aborts the loop with the previously written bytes intact;
no byte of the failing row is written because `struct.pack` only runs after
the whole row converted. -/
def convert_rows : List (List CsvField) → List Nat → ConvOutcome
  | [], acc => .ok acc
  | r :: rs, acc =>
    match float_row r with
    | none => .valueError acc
    | some l => convert_rows rs (acc ++ bin_row l)

/-- `WaveformGenerator.convert_csv_to_binary` (source lines 62-72) as a
function of the input CSV content.  `none` models a `csv_filename` for which
`os.path.isfile` is false; `some rows` is the row list produced by
`csv.reader`, header included.  Opening the output with mode `'wb'` (line 65)
truncates it before the header skip, so every non-`fileNotFound` outcome
carries the final output content. -/
def convert_csv_to_binary : Option (List (List CsvField)) → ConvOutcome
  | none => .fileNotFound
  | some [] => .stopIteration []
  | some (_ :: rows) => convert_rows rows []

/-- Content of the output file after a `convert_csv_to_binary` call, given its
content `prev` before the call (`none` = file absent).  Only the
`fileNotFound` outcome leaves the output untouched: it is raised before
`open(bin_filename, 'wb')` runs. -/
def outputAfter (prev : Option (List Nat)) : ConvOutcome → Option (List Nat)
  | .fileNotFound => prev
  | .stopIteration w => some w
  | .valueError w => some w
  | .ok w => some w

theorem float_row_all_num (r : List CsvField) (h : ∀ f ∈ r, f.isNum = true) :
    float_row r = some (r.map CsvField.bits) := by
  induction r with
  | nil => rfl
  | cons f t ih =>
    cases f with
    | num b =>
      rw [float_row, ih (fun x hx => h x (List.mem_cons_of_mem _ hx))]
      rfl
    | nonNum => exact absurd (h _ (List.mem_cons_self _ _)) (by simp [CsvField.isNum])

theorem float_row_bad (r : List CsvField) (h : ∃ f ∈ r, f.isNum = false) :
    float_row r = none := by
  induction r with
  | nil => obtain ⟨f, hf, _⟩ := h; cases hf
  | cons f t ih =>
    cases f with
    | num b =>
      obtain ⟨g, hg, hbad⟩ := h
      rcases List.mem_cons.mp hg with h1 | h2
      · subst h1; simp [CsvField.isNum] at hbad
      · rw [float_row, ih ⟨g, h2, hbad⟩]; rfl
    | nonNum => rfl

theorem convert_rows_all_ok (rows : List (List CsvField)) (acc : List Nat)
    (h : ∀ r ∈ rows, ∀ f ∈ r, f.isNum = true) :
    convert_rows rows acc =
      .ok (acc ++ (rows.map (fun r => bin_row (r.map CsvField.bits))).flatten) := by
  induction rows generalizing acc with
  | nil => simp [convert_rows]
  | cons r rs ih =>
    rw [convert_rows, float_row_all_num r (h r (List.mem_cons_self _ _))]
    dsimp only
    rw [ih _ (fun x hx => h x (List.mem_cons_of_mem _ hx))]
    simp [List.append_assoc]

theorem convert_rows_bad (good : List (List CsvField)) (bad : List CsvField)
    (rest : List (List CsvField)) (acc : List Nat)
    (hgood : ∀ r ∈ good, ∀ f ∈ r, f.isNum = true)
    (hbad : ∃ f ∈ bad, f.isNum = false) :
    convert_rows (good ++ bad :: rest) acc =
      .valueError (acc ++ (good.map (fun r => bin_row (r.map CsvField.bits))).flatten) := by
  induction good generalizing acc with
  | nil => simp [convert_rows, float_row_bad bad hbad]
  | cons r rs ih =>
    rw [List.cons_append, convert_rows,
      float_row_all_num r (hgood r (List.mem_cons_self _ _))]
    dsimp only
    rw [ih _ (fun x hx => hgood x (List.mem_cons_of_mem _ hx))]
    simp [List.append_assoc]

theorem bin_row_length (l : List Nat) : (bin_row l).length = 4 * l.length := by
  induction l with
  | nil => rfl
  | cons b t ih =>
    simp [bin_row, List.flatten, encodeField] at ih ⊢
    omega

theorem joined_rows_length (rows : List (List CsvField)) (M : Nat)
    (hM : ∀ r ∈ rows, r.length = M) :
    ((rows.map (fun r => bin_row (r.map CsvField.bits))).flatten).length =
      4 * (rows.length * M) := by
  induction rows with
  | nil => simp
  | cons r rs ih =>
    simp only [List.map_cons, List.flatten, List.length_append]
    rw [ih (fun x hx => hM x (List.mem_cons_of_mem _ hx)), bin_row_length,
      List.length_map, hM r (List.mem_cons_self _ _), List.length_cons]
    ring

/-- Claim C1: for a CSV of one header row and `N` data rows of `M` numeric
fields each, `convert_csv_to_binary` succeeds and the output file holds
exactly the per-field four-byte little-endian binary32 encodings, flattened
in row-major order, `4 * N * M` bytes in total. -/
theorem convert_csv_to_binary_rowmajor (header : List CsvField)
    (rows : List (List CsvField)) (M : Nat)
    (hM : ∀ r ∈ rows, r.length = M)
    (hnum : ∀ r ∈ rows, ∀ f ∈ r, f.isNum = true) :
    convert_csv_to_binary (some (header :: rows)) =
      .ok ((rows.map (fun r => bin_row (r.map CsvField.bits))).flatten)
    ∧ ((rows.map (fun r => bin_row (r.map CsvField.bits))).flatten).length =
        4 * (rows.length * M)
    ∧ ∀ prev, outputAfter prev (convert_csv_to_binary (some (header :: rows))) =
        some ((rows.map (fun r => bin_row (r.map CsvField.bits))).flatten) := by
  have hmain : convert_csv_to_binary (some (header :: rows)) =
      .ok ((rows.map (fun r => bin_row (r.map CsvField.bits))).flatten) := by
    rw [convert_csv_to_binary, convert_rows_all_ok rows [] hnum]
    simp
  refine ⟨hmain, joined_rows_length rows M hM, fun prev => ?_⟩
  rw [hmain]
  rfl

theorem convert_csv_to_binary_rowmajor_witness :
    convert_csv_to_binary
        (some [[CsvField.num 9], [CsvField.num 1, CsvField.num 2],
               [CsvField.num 259, CsvField.num 4]]) =
      .ok [1, 0, 0, 0, 2, 0, 0, 0, 3, 1, 0, 0, 4, 0, 0, 0]
    ∧ ([1, 0, 0, 0, 2, 0, 0, 0, 3, 1, 0, 0, 4, 0, 0, 0] : List Nat).length =
        4 * (2 * 2) := by
  have h := convert_csv_to_binary_rowmajor [CsvField.num 9]
    [[CsvField.num 1, CsvField.num 2], [CsvField.num 259, CsvField.num 4]] 2
    (by decide) (by decide)
  exact ⟨h.1.trans (by decide), by decide⟩

/-- Claim C6: a non-numeric field in some data row aborts the transcode at the
first such row with a `ValueError`, and the output file then holds exactly the
bytes of the rows preceding it. -/
theorem convert_csv_partial_write (header : List CsvField)
    (good : List (List CsvField)) (bad : List CsvField) (rest : List (List CsvField))
    (prev : Option (List Nat))
    (hgood : ∀ r ∈ good, ∀ f ∈ r, f.isNum = true)
    (hbad : ∃ f ∈ bad, f.isNum = false) :
    convert_csv_to_binary (some (header :: (good ++ bad :: rest))) =
      .valueError ((good.map (fun r => bin_row (r.map CsvField.bits))).flatten)
    ∧ outputAfter prev
        (convert_csv_to_binary (some (header :: (good ++ bad :: rest)))) =
      some ((good.map (fun r => bin_row (r.map CsvField.bits))).flatten) := by
  have hmain : convert_csv_to_binary (some (header :: (good ++ bad :: rest))) =
      .valueError ((good.map (fun r => bin_row (r.map CsvField.bits))).flatten) := by
    rw [convert_csv_to_binary, convert_rows_bad good bad rest [] hgood hbad]
    simp
  refine ⟨hmain, ?_⟩
  rw [hmain]
  rfl

theorem convert_csv_partial_write_witness :
    convert_csv_to_binary
        (some [[CsvField.num 9], [CsvField.num 1], [CsvField.num 2, CsvField.nonNum],
               [CsvField.num 3]]) =
      .valueError [1, 0, 0, 0]
    ∧ outputAfter none
        (convert_csv_to_binary
          (some [[CsvField.num 9], [CsvField.num 1], [CsvField.num 2, CsvField.nonNum],
                 [CsvField.num 3]])) =
      some [1, 0, 0, 0] := by
  have h := convert_csv_partial_write [CsvField.num 9] [[CsvField.num 1]]
    [CsvField.num 2, CsvField.nonNum] [[CsvField.num 3]] none
    (by decide) (by decide)
  exact ⟨h.1.trans (by decide), h.2.trans (by decide)⟩

/-- Claim C7: on a path that is not an existing file, `convert_csv_to_binary`
fails with `FileNotFoundError` and the output file is neither created nor
modified (the error is raised before the output is opened). -/
theorem convert_csv_missing_input (prev : Option (List Nat)) :
    convert_csv_to_binary none = .fileNotFound
    ∧ outputAfter prev (convert_csv_to_binary none) = prev := by
  exact ⟨rfl, rfl⟩

/-- Claim C10: on an existing but completely empty CSV file (zero rows), the
header skip `next(reader)` raises an uncaught `StopIteration`, and the output
file has nevertheless been created (or truncated to) empty by the `'wb'`
open. -/
theorem convert_csv_empty_file (prev : Option (List Nat)) :
    convert_csv_to_binary (some []) = .stopIteration []
    ∧ outputAfter prev (convert_csv_to_binary (some [])) = some [] := by
  exact ⟨rfl, rfl⟩

/-! ### Path handling: models of `os.path.basename` and `os.path.splitext` -/

/-- Characters of `os.path.basename`: everything after the last slash. -/
def basenameChars (cs : List Char) : List Char :=
  (cs.reverse.takeWhile (fun c => c != '/')).reverse

/-- `os.path.basename` (POSIX flavour, as used at source lines 75 and 85). -/
def basename (s : String) : String := String.mk (basenameChars s.data)

/-- Split a character list at its last dot: `splitRoot l = some (st, ex)` iff
`l = st ++ '.' :: ex` with `ex` dot-free; `none` iff `l` has no dot. -/
def splitRoot : List Char → Option (List Char × List Char)
  | [] => none
  | c :: cs =>
    match splitRoot cs with
    | some (st, ex) => some (c :: st, ex)
    | none => if c == '.' then some ([], cs) else none

/-- CPython `posixpath.splitext` restricted to a basename (no slashes): a
leading run of dots never starts an extension, and the extension begins at the
last dot of the remainder. -/
def splitextCore (b : List Char) : List Char × List Char :=
  match splitRoot (b.dropWhile (fun c => c == '.')) with
  | some (st, ex) => (b.takeWhile (fun c => c == '.') ++ st, '.' :: ex)
  | none => (b, [])

/-- CPython `posixpath.splitext` on a full path: the directory part (up to and
including the last slash) is carried into the root unchanged. -/
def splitextChars (cs : List Char) : List Char × List Char :=
  ((cs.reverse.dropWhile (fun c => c != '/')).reverse ++
      (splitextCore (basenameChars cs)).1,
    (splitextCore (basenameChars cs)).2)

/-- `os.path.splitext` (source lines 75, 82, 85). -/
def splitext (s : String) : String × String :=
  (String.mk (splitextChars s.data).1, String.mk (splitextChars s.data).2)

/-- The binary path derivation of source line 82:
`bin_filename = os.path.splitext(csv_filename)[0] + '.bin'`. -/
def bin_path (csv_filename : String) : String := (splitext csv_filename).1 ++ ".bin"

/-- The on-device waveform name used when storing the payload (source line 75):
`os.path.splitext(os.path.basename(bin_filename))[0]`. -/
def waveform_store_name (bin_filename : String) : String :=
  (splitext (basename bin_filename)).1

/-- The waveform name used when selecting by name (source line 85):
`os.path.splitext(os.path.basename(csv_filename))[0]`. -/
def waveform_select_name (csv_filename : String) : String :=
  (splitext (basename csv_filename)).1

theorem dropWhile_head_false {α : Type} (p : α → Bool) (l : List α) (a : α)
    (t : List α) (h : l.dropWhile p = a :: t) : p a = false := by
  induction l with
  | nil => simp [List.dropWhile] at h
  | cons x xs ih =>
    rw [List.dropWhile_cons] at h
    by_cases hx : p x = true
    · rw [if_pos hx] at h; exact ih h
    · rw [if_neg hx] at h
      cases h
      simpa using hx

theorem splitRoot_eq (l st ex : List Char) (h : splitRoot l = some (st, ex)) :
    l = st ++ '.' :: ex := by
  induction l generalizing st ex with
  | nil => simp [splitRoot] at h
  | cons c cs ih =>
    rw [splitRoot] at h
    cases hr : splitRoot cs with
    | some q =>
      obtain ⟨st', ex'⟩ := q
      rw [hr] at h
      simp only [Option.some.injEq, Prod.mk.injEq] at h
      obtain ⟨h1, h2⟩ := h
      rw [← h1, ← h2, List.cons_append]
      exact congrArg (List.cons c) (ih st' ex' hr)
    | none =>
      rw [hr] at h
      by_cases hc : (c == '.') = true
      · rw [if_pos hc] at h
        simp only [Option.some.injEq, Prod.mk.injEq] at h
        obtain ⟨h1, h2⟩ := h
        subst h1; subst h2
        rw [List.nil_append]
        rw [show c = '.' from by simpa using hc]
      · rw [if_neg hc] at h
        cases h

theorem splitRoot_none (l : List Char) (h : ∀ c ∈ l, (c == '.') = false) :
    splitRoot l = none := by
  induction l with
  | nil => rfl
  | cons c cs ih =>
    rw [splitRoot, ih (fun x hx => h x (List.mem_cons_of_mem _ hx))]
    simp [h c (List.mem_cons_self _ _)]

theorem splitRoot_append (x ex : List Char) (hex : ∀ c ∈ ex, (c == '.') = false) :
    splitRoot (x ++ '.' :: ex) = some (x, ex) := by
  induction x with
  | nil =>
    rw [List.nil_append, splitRoot, splitRoot_none ex hex]
    simp
  | cons c cs ih =>
    rw [List.cons_append, splitRoot, ih]

theorem mem_takeWhile_pred {α : Type} (p : α → Bool) (l : List α) (a : α)
    (h : a ∈ l.takeWhile p) : p a = true := by
  induction l with
  | nil => simp [List.takeWhile] at h
  | cons x xs ih =>
    rw [List.takeWhile_cons] at h
    by_cases hx : p x = true
    · rw [if_pos hx] at h
      rcases List.mem_cons.mp h with rfl | h2
      · exact hx
      · exact ih h2
    · rw [if_neg hx] at h
      simp at h

theorem bin_ext_noslash : ∀ c ∈ ['.', 'b', 'i', 'n'], (c != '/') = true := by decide

theorem splitextCore_subset (b : List Char) (c : Char)
    (h : c ∈ (splitextCore b).1) : c ∈ b := by
  rw [splitextCore] at h
  cases hr : splitRoot (b.dropWhile (fun x => x == '.')) with
  | none =>
    rw [hr] at h
    exact h
  | some q =>
    obtain ⟨st, ex⟩ := q
    rw [hr] at h
    dsimp only at h
    rcases List.mem_append.mp h with h1 | h2
    · exact List.takeWhile_subset _ h1
    · have hd := splitRoot_eq _ _ _ hr
      have hmem : c ∈ b.dropWhile (fun x => x == '.') := by
        rw [hd]
        exact List.mem_append.mpr (Or.inl h2)
      exact List.dropWhile_subset _ hmem

theorem splitextCore_append_bin (r : List Char)
    (h : r.any (fun c => c != '.') = true) :
    splitextCore (r ++ ['.', 'b', 'i', 'n']) = (r, ['.', 'b', 'i', 'n']) := by
  obtain ⟨x, hx, hxe⟩ := List.any_eq_true.mp h
  have hq : r.dropWhile (fun c => c == '.') ≠ [] := by
    intro hnil
    have hall := List.dropWhile_eq_nil_iff.mp hnil x hx
    simp only [beq_iff_eq] at hall
    simp only [bne_iff_ne, ne_eq] at hxe
    exact hxe hall
  cases hq2 : r.dropWhile (fun c => c == '.') with
  | nil => exact absurd hq2 hq
  | cons qh qt =>
    have hqh : (qh == '.') = false := dropWhile_head_false _ r qh qt hq2
    have hdecomp : r.takeWhile (fun c => c == '.') ++ qh :: qt = r := by
      rw [← hq2]
      exact List.takeWhile_append_dropWhile _ _
    have htw : (r ++ ['.', 'b', 'i', 'n']).takeWhile (fun c => c == '.') =
        r.takeWhile (fun c => c == '.') := by
      conv_lhs => rw [← hdecomp]
      rw [List.append_assoc,
        List.takeWhile_append_of_pos (fun a ha => mem_takeWhile_pred _ _ a ha),
        List.cons_append, List.takeWhile_cons, hqh]
      simp
    have hdw : (r ++ ['.', 'b', 'i', 'n']).dropWhile (fun c => c == '.') =
        qh :: (qt ++ ['.', 'b', 'i', 'n']) := by
      conv_lhs => rw [← hdecomp]
      rw [List.append_assoc,
        List.dropWhile_append_of_pos (fun a ha => mem_takeWhile_pred _ _ a ha),
        List.cons_append, List.dropWhile_cons, hqh]
      simp
    have hsr : splitRoot (qh :: (qt ++ ['.', 'b', 'i', 'n'])) =
        some (qh :: qt, ['b', 'i', 'n']) := by
      have hsa := splitRoot_append (qh :: qt) ['b', 'i', 'n'] (by decide)
      simpa using hsa
    rw [splitextCore, hdw, hsr]
    dsimp only
    rw [htw, hdecomp]

theorem splitextCore_any (b : List Char) (h : b.any (fun c => c != '.') = true) :
    ((splitextCore b).1).any (fun c => c != '.') = true := by
  obtain ⟨x, hx, hxe⟩ := List.any_eq_true.mp h
  have hq : b.dropWhile (fun c => c == '.') ≠ [] := by
    intro hnil
    have hall := List.dropWhile_eq_nil_iff.mp hnil x hx
    simp only [beq_iff_eq] at hall
    simp only [bne_iff_ne, ne_eq] at hxe
    exact hxe hall
  cases hq2 : b.dropWhile (fun c => c == '.') with
  | nil => exact absurd hq2 hq
  | cons qh qt =>
    have hqh : (qh == '.') = false := dropWhile_head_false _ b qh qt hq2
    rw [splitextCore]
    cases hr : splitRoot (b.dropWhile (fun c => c == '.')) with
    | none =>
      dsimp only
      exact h
    | some q =>
      obtain ⟨st, ex⟩ := q
      dsimp only
      have hd := splitRoot_eq _ _ _ hr
      rw [hq2] at hd
      cases st with
      | nil =>
        rw [List.nil_append] at hd
        injection hd with h0 h1
        rw [h0] at hqh
        simp at hqh
      | cons s0 st' =>
        rw [List.cons_append] at hd
        injection hd with h0 h1
        apply List.any_eq_true.mpr
        refine ⟨s0, List.mem_append.mpr (Or.inr (List.mem_cons_self _ _)), ?_⟩
        rw [← h0]
        simpa using hqh

theorem basenameChars_append (x y : List Char) (hy : ∀ c ∈ y, (c != '/') = true) :
    basenameChars (x ++ y) = basenameChars x ++ y := by
  rw [basenameChars, basenameChars, List.reverse_append,
    List.takeWhile_append_of_pos (fun a ha => hy a (List.mem_reverse.mp ha)),
    List.reverse_append, List.reverse_reverse]

theorem basenameChars_all (cs : List Char) :
    ∀ c ∈ basenameChars cs, (c != '/') = true := by
  intro c hc
  rw [basenameChars, List.mem_reverse] at hc
  exact mem_takeWhile_pred _ _ c hc

theorem basenameChars_self (l : List Char) (h : ∀ c ∈ l, (c != '/') = true) :
    basenameChars l = l := by
  rw [basenameChars,
    List.takeWhile_eq_self_iff.mpr (fun x hx => h x (List.mem_reverse.mp hx)),
    List.reverse_reverse]

theorem basenameChars_dir (cs : List Char) :
    basenameChars ((cs.reverse.dropWhile (fun c => c != '/')).reverse) = [] := by
  rw [basenameChars, List.reverse_reverse]
  cases hq : cs.reverse.dropWhile (fun c => c != '/') with
  | nil => simp
  | cons a t =>
    have ha : (a != '/') = false := dropWhile_head_false _ _ a t hq
    rw [List.takeWhile_cons, ha]
    simp

theorem splitextChars_noslash (l : List Char) (h : ∀ c ∈ l, (c != '/') = true) :
    (splitextChars l).1 = (splitextCore l).1 := by
  rw [splitextChars]
  dsimp only
  rw [List.dropWhile_eq_nil_iff.mpr (fun x hx => h x (List.mem_reverse.mp hx)),
    basenameChars_self l h]
  simp

theorem waveform_store_eq_select (csv : String)
    (h : (basename csv).data.any (fun c => c != '.') = true) :
    waveform_store_name (bin_path csv) = waveform_select_name csv := by
  have hb : (basename csv).data = basenameChars csv.data := rfl
  rw [hb] at h
  have hrslash : ∀ c ∈ (splitextCore (basenameChars csv.data)).1, (c != '/') = true :=
    fun c hc => basenameChars_all csv.data c (splitextCore_subset _ c hc)
  have hbindata : (bin_path csv).data =
      ((csv.data.reverse.dropWhile (fun c => c != '/')).reverse ++
        (splitextCore (basenameChars csv.data)).1) ++ ['.', 'b', 'i', 'n'] := by
    show (splitext csv).1.data ++ (".bin" : String).data = _
    show (splitextChars csv.data).1 ++ (".bin" : String).data = _
    rw [splitextChars]
  have hbase : basenameChars ((bin_path csv).data) =
      (splitextCore (basenameChars csv.data)).1 ++ ['.', 'b', 'i', 'n'] := by
    rw [hbindata, basenameChars_append _ _ (by decide),
      basenameChars_append _ _ hrslash, basenameChars_dir, List.nil_append]
  have hstore : waveform_store_name (bin_path csv) =
      String.mk ((splitextChars (basenameChars ((bin_path csv).data))).1) := rfl
  have hsel : waveform_select_name csv =
      String.mk ((splitextChars (basenameChars csv.data)).1) := rfl
  rw [hstore, hsel, hbase,
    splitextChars_noslash _ (fun c hc => by
      rcases List.mem_append.mp hc with h1 | h2
      · exact hrslash c h1
      · exact bin_ext_noslash c h2),
    splitextChars_noslash _ (basenameChars_all csv.data),
    splitextCore_append_bin _ (splitextCore_any _ h)]

/-- Claim C8, counterexample: for the legal (if unusual) file name `"..."`,
the name under which the payload is stored on the device (derived from the
binary file name) differs from the name used to select the waveform (derived
from the CSV file name). -/
theorem waveform_name_counterexample :
    waveform_store_name (bin_path "...") = "....bin"
    ∧ waveform_select_name "..." = "..."
    ∧ waveform_store_name (bin_path "...") ≠ waveform_select_name "..." := by
  exact ⟨by decide, by decide, by decide⟩

/-- Claim C8 (amended): for every CSV path whose base name contains at least
one non-dot character, the binary output path is the CSV path with its
extension replaced by the fixed `.bin` extension, the waveform name used when
storing the payload equals the waveform name used when selecting it, and both
equal the source file's base name without extension. -/
theorem waveform_name_deterministic (csv : String)
    (h : (basename csv).data.any (fun c => c != '.') = true) :
    bin_path csv = (splitext csv).1 ++ ".bin"
    ∧ waveform_store_name (bin_path csv) = waveform_select_name csv
    ∧ waveform_select_name csv = (splitext (basename csv)).1 := by
  exact ⟨rfl, waveform_store_eq_select csv h, rfl⟩

theorem waveform_name_deterministic_witness :
    bin_path "dir/wave.csv" = "dir/wave.bin"
    ∧ waveform_store_name (bin_path "dir/wave.csv") =
        waveform_select_name "dir/wave.csv"
    ∧ waveform_select_name "dir/wave.csv" = "wave" := by
  have h := waveform_name_deterministic "dir/wave.csv" (by decide)
  exact ⟨h.1.trans (by decide), h.2.1, h.2.2.trans (by decide)⟩

/-! ### Device commands and the `WaveformGenerator` setters -/

/-- A Python value as interpolated into an SCPI command f-string.  `str s` is
a Python `str`; `floatOfStr s` is the Python float `float(s)` (its numeric
value and `repr` are external library behaviour, so the originating literal is
kept symbolically). -/
inductive PyVal where
  | str (s : String)
  | floatOfStr (s : String)
deriving DecidableEq

/-- One call on the device handle, in issue order.
`write ch body arg` models `send_command(f'C{ch}:{body},{arg}')`
(or `f'C{ch}:{body}'` when `arg` is `none`, as for `OUTP ON` / `OUTP OFF`);
`writeBinary ch name data` models
`device.write_binary_values(f'C{ch}:WVDT WVNM,{name},WAVEDATA,', data)`. -/
inductive DevCmd where
  | write (channel : Nat) (body : String) (arg : Option PyVal)
  | writeBinary (channel : Nat) (name : String) (data : List Nat)
deriving DecidableEq

/-- The channel a command addresses (the `C<n>:` prefix). -/
def DevCmd.channelOf : DevCmd → Nat
  | .write ch _ _ => ch
  | .writeBinary ch _ _ => ch

/-- `set_waveform_type` (source line 35): `C{channel}:BSWV WVTP,{waveform_type}`. -/
def set_waveform_type (channel : Nat) (waveform_type : PyVal) : DevCmd :=
  .write channel "BSWV WVTP" (some waveform_type)

/-- `set_frequency` (source line 38): `C{channel}:BSWV FRQ,{frequency}`. -/
def set_frequency (channel : Nat) (frequency : PyVal) : DevCmd :=
  .write channel "BSWV FRQ" (some frequency)

/-- `set_amplitude` (source line 41): `C{channel}:BSWV AMP,{amplitude}`. -/
def set_amplitude (channel : Nat) (amplitude : PyVal) : DevCmd :=
  .write channel "BSWV AMP" (some amplitude)

/-- `set_phase` (source line 44): `C{channel}:BSWV PHSE,{phase}`. -/
def set_phase (channel : Nat) (phase : PyVal) : DevCmd :=
  .write channel "BSWV PHSE" (some phase)

/-- `set_offset` (source line 47): `C{channel}:BSWV OFST,{offset}`. -/
def set_offset (channel : Nat) (offset : PyVal) : DevCmd :=
  .write channel "BSWV OFST" (some offset)

/-- `start_waveform` (source line 50): `C{channel}:OUTP ON`. -/
def start_waveform (channel : Nat) : DevCmd :=
  .write channel "OUTP ON" none

/-- `stop_waveform` (source line 53): `C{channel}:OUTP OFF`. -/
def stop_waveform (channel : Nat) : DevCmd :=
  .write channel "OUTP OFF" none

/-- `set_arbitrary_waveform_by_name` (source line 56):
`C{channel}:ARWV NAME,{name}`. -/
def set_arbitrary_waveform_by_name (channel : Nat) (name : String) : DevCmd :=
  .write channel "ARWV NAME" (some (.str name))

/-- `save_binary_waveform_to_device` (source lines 74-79): the waveform name
is the binary file's base name without extension, and the command prefix is
the literal `'C1:WVDT WVNM,...'` - the channel is hardcoded to 1 in the
source.  `data` is the content read back from `bin_filename`. -/
def save_binary_waveform_to_device (bin_filename : String) (data : List Nat) : DevCmd :=
  .writeBinary 1 (waveform_store_name bin_filename) data

/-! ### The composite upload operation (source lines 81-91) -/

/-- The seven device calls of a fully successful
`upload_and_generate_waveform`, in source order (lines 84-90). -/
def upload_command_seq (channel : Nat) (csv_filename : String) (data : List Nat)
    (frequency amplitude phase offset : PyVal) : List DevCmd :=
  [save_binary_waveform_to_device (bin_path csv_filename) data,
   set_arbitrary_waveform_by_name channel (waveform_select_name csv_filename),
   set_frequency channel frequency,
   set_amplitude channel amplitude,
   set_phase channel phase,
   set_offset channel offset,
   start_waveform channel]

/-- Issue a straight-line sequence of device calls with exception semantics:
`devFailAt = some k` means the device raises on the k-th call (0-based), so
that call and everything after it never reach the device, while the earlier
calls stand (nothing is rolled back); `none` means no device failure. -/
def issueAll : Option Nat → List DevCmd → List DevCmd
  | _, [] => []
  | some 0, _ :: _ => []
  | some (k + 1), c :: cs => c :: issueAll (some k) cs
  | none, c :: cs => c :: issueAll none cs

/-- Result of one `upload_and_generate_waveform` call. -/
inductive UploadResult where
  | ok
  | fileNotFound
  | stopIteration
  | valueError
  | deviceError
deriving DecidableEq

/-- `WaveformGenerator.upload_and_generate_waveform` (source lines 81-91):
derive the binary path, transcode (line 83, any transcode failure propagates
before any device traffic), then issue the seven device calls in source
order.  `csvContent` is the content of `csv_filename` (`none` if absent);
the binary file read back at line 77 is exactly what the transcoder just
wrote.  Returns the trace of device calls that were issued and the overall
outcome. -/
def upload_and_generate_waveform (devFailAt : Option Nat) (channel : Nat)
    (csvContent : Option (List (List CsvField))) (csv_filename : String)
    (frequency amplitude phase offset : PyVal) : List DevCmd × UploadResult :=
  match convert_csv_to_binary csvContent with
  | .fileNotFound => ([], .fileNotFound)
  | .stopIteration _ => ([], .stopIteration)
  | .valueError _ => ([], .valueError)
  | .ok data =>
    let seq := upload_command_seq channel csv_filename data frequency amplitude
      phase offset
    (issueAll devFailAt seq,
      match devFailAt with
      | some k => if k < seq.length then .deviceError else .ok
      | none => .ok)

theorem issueAll_none (l : List DevCmd) : issueAll none l = l := by
  induction l with
  | nil => rfl
  | cons c cs ih => rw [issueAll, ih]

theorem issueAll_take (k : Nat) (l : List DevCmd) :
    issueAll (some k) l = l.take k := by
  induction l generalizing k with
  | nil => cases k <;> rfl
  | cons c cs ih =>
    cases k with
    | zero => rfl
    | succ k => rw [issueAll, ih k, List.take_succ_cons]

theorem upload_none_eq (channel : Nat) (csvContent : Option (List (List CsvField)))
    (csv : String) (f a p o : PyVal) (data : List Nat)
    (h : convert_csv_to_binary csvContent = .ok data) :
    upload_and_generate_waveform none channel csvContent csv f a p o =
      ([.writeBinary 1 (waveform_store_name (bin_path csv)) data,
        .write channel "ARWV NAME" (some (.str (waveform_select_name csv))),
        .write channel "BSWV FRQ" (some f),
        .write channel "BSWV AMP" (some a),
        .write channel "BSWV PHSE" (some p),
        .write channel "BSWV OFST" (some o),
        .write channel "OUTP ON" none], .ok) := by
  rw [upload_and_generate_waveform, h]
  dsimp only
  rw [issueAll_none]
  rfl

/-- Claim C2: when the transcode succeeds, a completing
`upload_and_generate_waveform` makes the device receive exactly the seven
commands binary-payload upload, select-waveform-by-name, set frequency, set
amplitude, set phase, set offset, output enable, in that order; and when the
device raises on the k-th call, exactly the first k commands have been
issued, the remaining steps are not executed and nothing is rolled back. -/
theorem upload_and_generate_command_order (channel : Nat)
    (csvContent : Option (List (List CsvField))) (csv : String)
    (f a p o : PyVal) (data : List Nat)
    (h : convert_csv_to_binary csvContent = .ok data) :
    upload_and_generate_waveform none channel csvContent csv f a p o =
      ([.writeBinary 1 (waveform_store_name (bin_path csv)) data,
        .write channel "ARWV NAME" (some (.str (waveform_select_name csv))),
        .write channel "BSWV FRQ" (some f),
        .write channel "BSWV AMP" (some a),
        .write channel "BSWV PHSE" (some p),
        .write channel "BSWV OFST" (some o),
        .write channel "OUTP ON" none], .ok)
    ∧ ∀ k, (upload_and_generate_waveform (some k) channel csvContent csv f a p o).1 =
        (upload_and_generate_waveform none channel csvContent csv f a p o).1.take k := by
  refine ⟨upload_none_eq channel csvContent csv f a p o data h, fun k => ?_⟩
  rw [upload_and_generate_waveform, upload_and_generate_waveform, h]
  dsimp only
  rw [issueAll_none, issueAll_take]

theorem upload_and_generate_command_order_witness :
    upload_and_generate_waveform none 2 (some [[], [CsvField.num 5]]) "w.csv"
        (.floatOfStr "10") (.floatOfStr "1") (.floatOfStr "0") (.floatOfStr "0") =
      ([.writeBinary 1 "w" [5, 0, 0, 0],
        .write 2 "ARWV NAME" (some (.str "w")),
        .write 2 "BSWV FRQ" (some (.floatOfStr "10")),
        .write 2 "BSWV AMP" (some (.floatOfStr "1")),
        .write 2 "BSWV PHSE" (some (.floatOfStr "0")),
        .write 2 "BSWV OFST" (some (.floatOfStr "0")),
        .write 2 "OUTP ON" none], .ok)
    ∧ (upload_and_generate_waveform (some 3) 2 (some [[], [CsvField.num 5]]) "w.csv"
        (.floatOfStr "10") (.floatOfStr "1") (.floatOfStr "0") (.floatOfStr "0")).1 =
      (upload_and_generate_waveform none 2 (some [[], [CsvField.num 5]]) "w.csv"
        (.floatOfStr "10") (.floatOfStr "1") (.floatOfStr "0") (.floatOfStr "0")).1.take 3 := by
  have h := upload_and_generate_command_order 2 (some [[], [CsvField.num 5]]) "w.csv"
    (.floatOfStr "10") (.floatOfStr "1") (.floatOfStr "0") (.floatOfStr "0")
    [5, 0, 0, 0] (by decide)
  exact ⟨h.1.trans (by decide), h.2 3⟩

/-- Claim C5: in the composite upload the binary-payload write addresses
channel 1 in its device command regardless of the channel argument, while
every subsequent command of the sequence addresses the requested channel. -/
theorem upload_binary_channel_one (channel : Nat)
    (csvContent : Option (List (List CsvField))) (csv : String)
    (f a p o : PyVal) (data : List Nat)
    (h : convert_csv_to_binary csvContent = .ok data) :
    (upload_and_generate_waveform none channel csvContent csv f a p o).1.head? =
      some (.writeBinary 1 (waveform_store_name (bin_path csv)) data)
    ∧ ∀ c ∈ (upload_and_generate_waveform none channel csvContent csv f a p o).1.tail,
        c.channelOf = channel := by
  have htrace := upload_none_eq channel csvContent csv f a p o data h
  rw [Prod.ext_iff] at htrace
  rw [htrace.1]
  refine ⟨rfl, ?_⟩
  intro c hc
  simp only [List.tail_cons, List.mem_cons, List.not_mem_nil, or_false] at hc
  rcases hc with rfl | rfl | rfl | rfl | rfl | rfl <;> rfl

theorem upload_binary_channel_one_witness :
    (upload_and_generate_waveform none 2 (some [[], [CsvField.num 5]]) "w.csv"
        (.floatOfStr "10") (.floatOfStr "1") (.floatOfStr "0") (.floatOfStr "0")).1.head? =
      some (.writeBinary 1 (waveform_store_name (bin_path "w.csv")) [5, 0, 0, 0])
    ∧ ∀ c ∈ (upload_and_generate_waveform none 2 (some [[], [CsvField.num 5]]) "w.csv"
        (.floatOfStr "10") (.floatOfStr "1") (.floatOfStr "0") (.floatOfStr "0")).1.tail,
        c.channelOf = 2 :=
  upload_binary_channel_one 2 (some [[], [CsvField.num 5]]) "w.csv"
    (.floatOfStr "10") (.floatOfStr "1") (.floatOfStr "0") (.floatOfStr "0")
    [5, 0, 0, 0] (by decide)

/-! ### The Redis remote-command dispatcher (`WaveformGUI.execute_redis_command`) -/

/-- Python `str.split()` with no argument: split on runs of whitespace,
discarding empty pieces.  `cur` accumulates the current token reversed. -/
def pySplitAux : List Char → List Char → List String
  | [], [] => []
  | [], cur => [String.mk cur.reverse]
  | c :: cs, cur =>
    if c.isWhitespace then
      match cur with
      | [] => pySplitAux cs []
      | _ :: _ => String.mk cur.reverse :: pySplitAux cs []
    else pySplitAux cs (c :: cur)

/-- `command.split()` at source line 260. -/
def pySplit (s : String) : List String := pySplitAux s.data []

/-- Python `float(s)` acceptance, modelled for plain decimal literals: an
optional sign, then digits with at most one decimal point and at least one
digit.  (Python's `float` also accepts exponents, `inf`/`nan` and surrounding
whitespace; no verified claim evaluates the dispatcher on such literals.) -/
def isFloatLitCore (cs : List Char) : Bool :=
  cs.any (fun c => c.isDigit) &&
    cs.all (fun c => c.isDigit || c == '.') &&
    decide ((cs.filter (fun c => c == '.')).length ≤ 1)

/-- Acceptance of `float` on a whole literal, sign included. -/
def isFloatLit (s : String) : Bool :=
  match s.data with
  | '+' :: rest => isFloatLitCore rest
  | '-' :: rest => isFloatLitCore rest
  | cs => isFloatLitCore cs

/-- Outcome of `WaveformGUI.execute_redis_command` (source lines 258-276),
carrying the device commands issued before the method returned or raised.
`attributeError`: the Redis `get` returned no value, so `None.split()` raised.
`indexError`: a `parts[i]` access was out of range.
`valueError`: a `float(...)` conversion failed.
`typeError`: `upload_and_generate_waveform` was invoked with only
`(channel, csv_filename)` (source line 266); Python raises `TypeError` for
the four missing required positional arguments before the method body runs,
so no device command and no file operation happens.
`unknownCommand`: the final `else` printed `Unknown command.`. -/
inductive RedisOutcome where
  | ok (trace : List DevCmd)
  | unknownCommand
  | attributeError
  | indexError (trace : List DevCmd)
  | valueError (trace : List DevCmd)
  | typeError (trace : List DevCmd)
deriving DecidableEq

/-- `WaveformGUI.execute_redis_command` (source lines 258-276).  `channel` is
`self.channel.get()`; `command` is the value fetched from Redis (`none` when
the key is absent); `isfile` models `os.path.isfile`.  Argument positions
follow the source exactly: `parts[2]` is the csv path in the `upload` branch
and the waveform type in the `set` branch, `parts[3]` and `parts[4]` the
frequency and amplitude literals, and each argument is evaluated only after
the previous setter call was already issued. -/
def execute_redis_command (channel : Nat) (command : Option String)
    (isfile : String → Bool) : RedisOutcome :=
  match command with
  | none => .attributeError
  | some cmd =>
    match pySplit cmd with
    | [] => .indexError []
    | p0 :: ps =>
      if p0 = "upload" then
        match ps with
        | _ :: csv_filename :: _ =>
          if isfile csv_filename then .typeError [] else .ok []
        | _ => .indexError []
      else if p0 = "set" then
        match ps with
        | _ :: waveform_type :: ps2 =>
          match ps2 with
          | fstr :: ps3 =>
            if isFloatLit fstr then
              match ps3 with
              | astr :: _ =>
                if isFloatLit astr then
                  .ok [set_waveform_type channel (.str waveform_type),
                       set_frequency channel (.floatOfStr fstr),
                       set_amplitude channel (.floatOfStr astr),
                       start_waveform channel]
                else
                  .valueError [set_waveform_type channel (.str waveform_type),
                               set_frequency channel (.floatOfStr fstr)]
              | [] =>
                .indexError [set_waveform_type channel (.str waveform_type),
                             set_frequency channel (.floatOfStr fstr)]
            else .valueError [set_waveform_type channel (.str waveform_type)]
          | [] => .indexError [set_waveform_type channel (.str waveform_type)]
        | _ => .indexError []
      else if p0 = "stop" then .ok [stop_waveform channel]
      else .unknownCommand

/-- Claim C9: dispatching `"stop"` issues exactly one device command, an
`OUTP OFF` on the configured channel, and nothing else. -/
theorem redis_stop_single_command (channel : Nat) (isfile : String → Bool) :
    execute_redis_command channel (some "stop") isfile =
      .ok [.write channel "OUTP OFF" none] := rfl

/-- Claim C3, counterexample: on the four-token command `"set X 1000 2.5"`
the code takes the waveform type from `parts[2]` (= `"1000"`) and the
frequency from `parts[3]` (= `"2.5"`), then raises `IndexError` at
`parts[4]`; in particular no waveform-type command with value `X`, no
amplitude command and no output-enable command is issued. -/
theorem redis_set_counterexample :
    execute_redis_command 1 (some "set X 1000 2.5") (fun _ => false) =
      .indexError [.write 1 "BSWV WVTP" (some (.str "1000")),
                   .write 1 "BSWV FRQ" (some (.floatOfStr "2.5"))]
    ∧ ∀ tr, execute_redis_command 1 (some "set X 1000 2.5") (fun _ => false) ≠
        .ok tr := by
  have h1 : execute_redis_command 1 (some "set X 1000 2.5") (fun _ => false) =
      .indexError [.write 1 "BSWV WVTP" (some (.str "1000")),
                   .write 1 "BSWV FRQ" (some (.floatOfStr "2.5"))] := by decide
  refine ⟨h1, fun tr h => ?_⟩
  rw [h1] at h
  exact RedisOutcome.noConfusion h

/-- Claim C3 (amended): the `set` verb reads its arguments from positions
`parts[2..4]`, the second token being unused, so the five-token command
`"set 0 X 1000 2.5"` issues exactly a waveform-type command with value `X`,
a frequency command with value `float("1000")`, an amplitude command with
value `float("2.5")` and an output enable, all on the configured channel, and
no phase or offset command; the four-token `"set X 1000 2.5"` of the original
claim instead misreads the arguments and aborts with `IndexError`. -/
theorem redis_set_amended (channel : Nat) (isfile : String → Bool) :
    execute_redis_command channel (some "set 0 X 1000 2.5") isfile =
      .ok [.write channel "BSWV WVTP" (some (.str "X")),
           .write channel "BSWV FRQ" (some (.floatOfStr "1000")),
           .write channel "BSWV AMP" (some (.floatOfStr "2.5")),
           .write channel "OUTP ON" none] := rfl

/-- Claim C4: a remote command that splits as `upload <token> <csv_path>`
first validates that `csv_path` is an existing file; when it is not, the
dispatcher prints a diagnostic and returns, issuing no device command and
raising nothing; when it is, the dispatcher calls the composite upload
operation with only the configured channel and the csv path, and Python
raises `TypeError` for the four missing required parameters
(frequency, amplitude, phase, offset) before any device command or file
operation takes place. -/
theorem redis_upload_dispatch (channel : Nat) (cmd tok path : String)
    (isfile : String → Bool) (h : pySplit cmd = ["upload", tok, path]) :
    (isfile path = false →
      execute_redis_command channel (some cmd) isfile = .ok [])
    ∧ (isfile path = true →
      execute_redis_command channel (some cmd) isfile = .typeError []) := by
  constructor <;> intro hf <;> simp [execute_redis_command, h, hf]

theorem redis_upload_dispatch_witness :
    (execute_redis_command 1 (some "upload x wave.csv") (fun _ => false) = .ok [])
    ∧ (execute_redis_command 1 (some "upload x wave.csv") (fun _ => true) =
        .typeError []) := by
  refine ⟨?_, ?_⟩
  · exact (redis_upload_dispatch 1 "upload x wave.csv" "x" "wave.csv"
      (fun _ => false) (by decide)).1 rfl
  · exact (redis_upload_dispatch 1 "upload x wave.csv" "x" "wave.csv"
      (fun _ => true) (by decide)).2 rfl
